import Mathlib

/-!
Verification of the doctor-finder derived-state core
(`src/hooks/useDoctorFinder.ts` and `src/types/index.ts`).

The development shallowly embeds the record normalizer (`parseFee`,
`parseExperience`, the per-record processing map), the filter state with its
URL (de)serialization and mutators, and the query engine (filtering,
multi-criteria sorting, suggestions).  JavaScript numbers that can be
`Infinity` or `NaN` are modelled explicitly: a parsed fee is `Option Int`
(`none` = `Infinity`), and comparator results live in `JSNum`, which has
`nan`, `posInf`, `negInf` and finite values, so that the behaviour of
`a.parsedFees - b.parsedFees` on two `Infinity` fees (namely `NaN`) is
captured faithfully.  `Array.prototype.sort` (stable per ECMAScript, with a
`NaN` comparator result coerced to `+0`) is modelled by the stable
`List.insertionSort` over the comparator-induced total preorder.
-/

/-- Numeric value of a list of decimal digit characters (base 10). -/
def digitsToNat (l : List Char) : Nat :=
  l.foldl (fun a c => 10 * a + (c.toNat - 48)) 0

/-- Leading digit run of a character list, parsed; `none` when the list does
not start with a digit (JavaScript `parseInt` returns `NaN` there). -/
def digitsLead (l : List Char) : Option Nat :=
  match l.takeWhile Char.isDigit with
  | [] => none
  | ds => some (digitsToNat ds)

/-- JavaScript `parseInt(s, 10)` on a string with no leading whitespace:
an optional sign followed by a maximal leading digit run; `none` models
`NaN`. -/
def jsParseInt (l : List Char) : Option Int :=
  match l with
  | [] => none
  | c :: rest =>
    if c = '-' then (digitsLead rest).map (fun n => -(n : Int))
    else if c = '+' then (digitsLead rest).map (fun n => (n : Int))
    else (digitsLead (c :: rest)).map (fun n => (n : Int))

/-- `parseFee` from `useDoctorFinder.ts`: empty string gives the infinite
sentinel (`none`); otherwise every character that is not a decimal digit or
a decimal point is stripped and the remainder is parsed with `parseInt`;
a failed parse again gives the sentinel. -/
def parseFee (feeString : String) : Option Int :=
  if feeString = "" then none
  else jsParseInt (feeString.data.filter (fun c => c.isDigit || c = '.'))

/-- First maximal run of decimal digits in a character list (the JavaScript
regular-expression match for a digit run), or `none` when no digit occurs. -/
def firstDigitRun (l : List Char) : Option (List Char) :=
  match l with
  | [] => none
  | c :: cs => if c.isDigit then some (c :: cs.takeWhile Char.isDigit) else firstDigitRun cs

/-- `parseExperience` from `useDoctorFinder.ts`: empty string gives 0;
otherwise the first digit run is parsed, with 0 when there is none or the
parse fails. -/
def parseExperience (expString : String) : Int :=
  if expString = "" then 0
  else
    match firstDigitRun expString.data with
    | none => 0
    | some run => (jsParseInt run).getD 0

/-- Specialty wrapper of the raw API payload (`{ name: string }`). -/
structure SpecialityWrapper where
  name : String
deriving DecidableEq, Repr

/-- The fields of `RawDoctorData` (from `types/index.ts`) that the
normalizer reads. -/
structure RawDoctorData where
  id : String
  name : String
  specialities : List SpecialityWrapper
  fees : String
  experience : String
  video_consult : Bool
  in_clinic : Bool
deriving DecidableEq, Repr

/-- The fields of the canonical `Doctor` record (from `types/index.ts`)
that the query engine reads.  `parsedFees = none` is the infinite
sentinel. -/
structure Doctor where
  id : String
  name : String
  specialityNames : List String
  parsedFees : Option Int
  parsedExperience : Int
  consultationModes : List String
deriving DecidableEq, Repr

/-- The per-record normalization lambda of the `rawData.map` call inside
the fetch effect of `useDoctorFinder`: builds the consultation-mode list
(video first, then in-clinic) and parses fee and experience. -/
def processDoctor (rawDoc : RawDoctorData) : Doctor :=
  { id := rawDoc.id
    name := rawDoc.name
    specialityNames := rawDoc.specialities.map (fun spec => spec.name)
    parsedFees := parseFee rawDoc.fees
    parsedExperience := parseExperience rawDoc.experience
    consultationModes :=
      (if rawDoc.video_consult then ["Video Consult"] else []) ++
      (if rawDoc.in_clinic then ["In Clinic"] else []) }

/-- `hay.containsSub needle`: JavaScript `String.prototype.includes` on
character lists. -/
def containsSub (hay needle : List Char) : Bool :=
  match hay with
  | [] => needle.isEmpty
  | _ :: t => needle.isPrefixOf hay || containsSub t needle

/-- Lower-cased characters of a string (JavaScript `toLowerCase` at the
ASCII level). -/
def lowerChars (s : String) : List Char :=
  s.data.map Char.toLower

/-- The name filter of both the search stage and the suggestion list:
`doc.name.toLowerCase().includes(searchTerm.toLowerCase())`. -/
def matchesSearch (searchTerm : String) (doc : Doctor) : Bool :=
  containsSub (lowerChars doc.name) (lowerChars searchTerm)

/-- A JavaScript number as produced by the sort comparator: `NaN`, the two
infinities, or a finite integer. -/
inductive JSNum where
  | nan
  | posInf
  | negInf
  | fin (q : Int)
deriving DecidableEq, Repr

/-- `a.parsedFees - b.parsedFees` in JavaScript, where `none` is
`Infinity`: `Infinity - Infinity = NaN`. -/
def feeSub : Option Int → Option Int → JSNum
  | none, none => .nan
  | none, some _ => .posInf
  | some _, none => .negInf
  | some x, some y => .fin (x - y)

/-- JavaScript `comparison !== 0`: true for `NaN` and the infinities. -/
def jsNonZero : JSNum → Bool
  | .fin q => q ≠ 0
  | _ => true

/-- The comparator body of the multi-level sort in `filteredDoctors`:
walk the active criteria; `"fees"` compares `a.parsedFees - b.parsedFees`,
`"experience"` compares `b.parsedExperience - a.parsedExperience`, any
other value leaves the comparison at 0; the first value with
`comparison !== 0` is returned, otherwise 0. -/
def compareChain (sortOptions : List String) (a b : Doctor) : JSNum :=
  match sortOptions with
  | [] => .fin 0
  | option :: rest =>
    let comparison : JSNum :=
      if option = "fees" then feeSub a.parsedFees b.parsedFees
      else if option = "experience" then .fin (b.parsedExperience - a.parsedExperience)
      else .fin 0
    if jsNonZero comparison then comparison else compareChain rest a b

/-- The total preorder `Array.prototype.sort` sorts by: the comparator
value, with `NaN` coerced to `+0` per ECMAScript `SortCompare`, is not
positive. -/
def jsLe (sortOptions : List String) (a b : Doctor) : Bool :=
  match compareChain sortOptions a b with
  | .nan => true
  | .posInf => false
  | .negInf => true
  | .fin q => q ≤ 0

/-- The filter state of `useDoctorFinder`, at the JavaScript runtime level:
the consultation type and the sort options hold whatever strings the
(unvalidated) URL casts let through; `specialties` is the `Set` in
insertion order. -/
structure FilterState where
  searchTerm : String
  consultationType : Option String
  specialties : List String
  sortOptions : List String
deriving DecidableEq, Repr

/-- Search stage of `filteredDoctors`: the filter runs only when
`searchTerm` is truthy (non-empty). -/
def stageSearch (st : FilterState) (doctors : List Doctor) : List Doctor :=
  if st.searchTerm ≠ "" then doctors.filter (matchesSearch st.searchTerm)
  else doctors

/-- Consultation stage of `filteredDoctors`: the filter runs only when
`consultationType` is truthy (neither null nor the empty string). -/
def stageConsult (st : FilterState) (doctors : List Doctor) : List Doctor :=
  match st.consultationType with
  | some c => if c ≠ "" then doctors.filter (fun doc => doc.consultationModes.contains c)
              else doctors
  | none => doctors

/-- Specialty stage of `filteredDoctors`: the filter runs only when the
selected-specialty set is non-empty; a doctor passes when some specialty
name is selected. -/
def stageSpecialty (st : FilterState) (doctors : List Doctor) : List Doctor :=
  if st.specialties ≠ [] then
    doctors.filter (fun doc => doc.specialityNames.any (fun n => st.specialties.contains n))
  else doctors

/-- The `filteredDoctors` memo: the three conditional filter stages
(search, consultation, specialties) followed by the conditional stable
multi-criteria sort. -/
def filteredDoctors (allDoctors : List Doctor) (st : FilterState) : List Doctor :=
  if st.sortOptions ≠ [] then
    List.insertionSort (fun a b => jsLe st.sortOptions a b = true)
      (stageSpecialty st (stageConsult st (stageSearch st allDoctors)))
  else stageSpecialty st (stageConsult st (stageSearch st allDoctors))

/-- JavaScript `String.prototype.trim`: drop leading and trailing
whitespace. -/
def trimmedChars (s : String) : List Char :=
  ((s.data.dropWhile Char.isWhitespace).reverse.dropWhile Char.isWhitespace).reverse

/-- The `suggestions` memo: empty when the trimmed search term is empty,
else the name matches over the full collection, truncated to the first
`MAX_SUGGESTIONS = 3`. -/
def suggestions (allDoctors : List Doctor) (searchTerm : String) : List Doctor :=
  if trimmedChars searchTerm = [] then []
  else (allDoctors.filter (matchesSearch searchTerm)).take 3

/-- The updater of `handleToggleSortOption`: remove the option when present
(`prev.filter(item => item !== option)`), else append it. -/
def handleToggleSortOption (option : String) (prev : List String) : List String :=
  if prev.contains option then prev.filter (fun item => item ≠ option)
  else prev ++ [option]

/-- The updater of `handleToggleSpecialty` on the insertion-ordered `Set`:
delete when present, else add at the end. -/
def handleToggleSpecialty (specialty : String) (prev : List String) : List String :=
  if prev.contains specialty then prev.filter (fun item => item ≠ specialty)
  else prev ++ [specialty]

/-- A query string as an ordered list of key-value pairs. -/
abbrev QueryString := List (String × String)

/-- `URLSearchParams.get`: the value of the first pair with the key. -/
def getParam (q : QueryString) (key : String) : Option String :=
  (List.find? (fun p => p.1 = key) q).map (fun p => p.2)

/-- `URLSearchParams.getAll`: the values of all pairs with the key, in
order. -/
def getAllParams (q : QueryString) (key : String) : List String :=
  (q.filter (fun p => p.1 = key)).map (fun p => p.2)

/-- `new Set(array)`: deduplicate keeping the first occurrence, preserving
insertion order. -/
def setFromList : List String → List String
  | [] => []
  | s :: rest => s :: setFromList (rest.filter (fun x => x ≠ s))
termination_by l => l.length
decreasing_by
  simp only [List.length_cons]
  exact Nat.lt_succ_of_le (List.length_filter_le _ _)

/-- The lazy `useState` initializers of `useDoctorFinder`: `search` via
`get` with an empty-string default, `consultation` via the unvalidated cast
followed by or-null (so the empty string becomes `none` but every other
string is kept),
`specialty` via `new Set(getAll ...)`, and `sort` via the unvalidated
`getAll ... as SortCriterion[]`. -/
def initFromURL (q : QueryString) : FilterState :=
  { searchTerm := (getParam q "search").getD ""
    consultationType :=
      match getParam q "consultation" with
      | none => none
      | some c => if c = "" then none else some c
    specialties := setFromList (getAllParams q "specialty")
    sortOptions := getAllParams q "sort" }

/-- The URL-synchronization effect of `useDoctorFinder`: `search` and
`consultation` only when truthy, then one `specialty` pair per set member
in insertion order, then one `sort` pair per active criterion in order. -/
def serializeFilters (st : FilterState) : QueryString :=
  (if st.searchTerm = "" then [] else [("search", st.searchTerm)]) ++
  (match st.consultationType with
   | none => []
   | some c => if c = "" then [] else [("consultation", c)]) ++
  st.specialties.map (fun s => ("specialty", s)) ++
  st.sortOptions.map (fun s => ("sort", s))

/-- `setSearchTerm` mutator. -/
def setSearchTermState (term : String) (st : FilterState) : FilterState :=
  { st with searchTerm := term }

/-- `setConsultationType` mutator. -/
def setConsultationTypeState (mode : Option String) (st : FilterState) : FilterState :=
  { st with consultationType := mode }

/-- `toggleSpecialty` mutator lifted to the state. -/
def toggleSpecialtyState (specialty : String) (st : FilterState) : FilterState :=
  { st with specialties := handleToggleSpecialty specialty st.specialties }

/-- `toggleSortOption` mutator lifted to the state. -/
def toggleSortOptionState (option : String) (st : FilterState) : FilterState :=
  { st with sortOptions := handleToggleSortOption option st.sortOptions }

/-- `clearFilters`: the atomic reset. -/
def clearedFilters : FilterState :=
  { searchTerm := "", consultationType := none, specialties := [], sortOptions := [] }

/-- States reachable from initialization-from-URL by the documented
mutators; the consultation and sort mutators carry the TypeScript argument
types (the two consultation modes or null; the two sort criteria). -/
inductive Reachable : FilterState → Prop
  | init (q : QueryString) : Reachable (initFromURL q)
  | search (t : String) (st : FilterState) : Reachable st → Reachable (setSearchTermState t st)
  | consult (m : Option String) (st : FilterState) :
      m = none ∨ m = some "Video Consult" ∨ m = some "In Clinic" →
      Reachable st → Reachable (setConsultationTypeState m st)
  | spec (s : String) (st : FilterState) : Reachable st → Reachable (toggleSpecialtyState s st)
  | sort (o : String) (st : FilterState) :
      o = "fees" ∨ o = "experience" →
      Reachable st → Reachable (toggleSortOptionState o st)
  | clear (st : FilterState) : Reachable st → Reachable clearedFilters

/-- Spec-side filter predicate, following the words of the spec: the three
conjunctive stages (case-insensitive name substring unless the search text
is empty; consultation-mode membership unless the filter is none; at least
one selected specialty unless the selection is empty). -/
def passesAllStages (st : FilterState) (doc : Doctor) : Bool :=
  (st.searchTerm = "" || matchesSearch st.searchTerm doc) &&
  (match st.consultationType with
   | none => true
   | some c => doc.consultationModes.contains c) &&
  (st.specialties = [] || doc.specialityNames.any (fun n => st.specialties.contains n))

/-- Spec-side fee ordering: ascending, with the infinite sentinel greater
than every finite value and two sentinels equal. -/
def feeOrd : Option Int → Option Int → Ordering
  | none, none => .eq
  | none, some _ => .gt
  | some _, none => .lt
  | some x, some y => compare x y

/-- Spec-side single-criterion comparison: fees ascending, experience
descending. -/
def specCriterionCmp (option : String) (a b : Doctor) : Ordering :=
  if option = "fees" then feeOrd a.parsedFees b.parsedFees
  else if option = "experience" then compare b.parsedExperience a.parsedExperience
  else .eq

/-- Spec-side lexicographic comparator chain: the first criterion that
does not compare equal decides. -/
def specChainCmp (sortOptions : List String) (a b : Doctor) : Ordering :=
  match sortOptions with
  | [] => .eq
  | option :: rest =>
    match specCriterionCmp option a b with
    | .eq => specChainCmp rest a b
    | c => c

/-- The total preorder induced by the spec-side comparator chain. -/
def specLe (sortOptions : List String) (a b : Doctor) : Bool :=
  match specChainCmp sortOptions a b with
  | .gt => false
  | _ => true

/-- A doctor with an unparseable fee (the infinite sentinel) and five
years of experience. -/
def docInfFiveExp : Doctor :=
  { id := "A", name := "Dr A", specialityNames := [], parsedFees := none,
    parsedExperience := 5, consultationModes := [] }

/-- A doctor with an unparseable fee (the infinite sentinel) and ten
years of experience. -/
def docInfTenExp : Doctor :=
  { id := "B", name := "Dr B", specialityNames := [], parsedFees := none,
    parsedExperience := 10, consultationModes := [] }

/-- A filter state with no filters and the active criteria
`[fees, experience]`. -/
def stateFeesThenExperience : FilterState :=
  { searchTerm := "", consultationType := none, specialties := [],
    sortOptions := ["fees", "experience"] }

/-- Six doctors, five of whose names contain the search text `ann`
case-insensitively. -/
def suggestionPool : List Doctor :=
  [ { id := "1", name := "Dr Ann", specialityNames := [], parsedFees := none,
      parsedExperience := 0, consultationModes := [] },
    { id := "2", name := "Dr Anne", specialityNames := [], parsedFees := none,
      parsedExperience := 0, consultationModes := [] },
    { id := "3", name := "ANNA", specialityNames := [], parsedFees := none,
      parsedExperience := 0, consultationModes := [] },
    { id := "4", name := "Dr Bob", specialityNames := [], parsedFees := none,
      parsedExperience := 0, consultationModes := [] },
    { id := "5", name := "Annabel", specialityNames := [], parsedFees := none,
      parsedExperience := 0, consultationModes := [] },
    { id := "6", name := "Joanne", specialityNames := [], parsedFees := none,
      parsedExperience := 0, consultationModes := [] } ]

/-- Equality of filter states in the sense of the round-trip property:
string equality for search and consultation, set equality for the
specialties, sequence equality for the sort criteria. -/
def FilterStateEquiv (a b : FilterState) : Prop :=
  a.searchTerm = b.searchTerm ∧ a.consultationType = b.consultationType ∧
  (∀ s, s ∈ a.specialties ↔ s ∈ b.specialties) ∧ a.sortOptions = b.sortOptions

/-- A query string exercising every parameter kind, with a duplicated
specialty. -/
def roundTripDemoQuery : QueryString :=
  [("search", "dr"), ("consultation", "Video Consult"), ("specialty", "X"),
   ("specialty", "X"), ("sort", "fees")]

/-- Three doctors exercising all three filter stages. -/
def filterDemoDoctors : List Doctor :=
  [ { id := "1", name := "Dr Ann", specialityNames := ["Cardiology", "Dermatology"],
      parsedFees := some 100, parsedExperience := 5,
      consultationModes := ["Video Consult"] },
    { id := "2", name := "Dr Bob", specialityNames := ["Dermatology"],
      parsedFees := some 200, parsedExperience := 3,
      consultationModes := ["In Clinic"] },
    { id := "3", name := "Dr Anne", specialityNames := ["Orthopaedics"],
      parsedFees := some 300, parsedExperience := 8,
      consultationModes := ["Video Consult", "In Clinic"] } ]

/-- A state with all three filters set and no sort criteria. -/
def filterDemoState : FilterState :=
  { searchTerm := "ann", consultationType := some "Video Consult",
    specialties := ["Dermatology"], sortOptions := [] }

theorem takeWhile_eq_of_all {α : Type} {p : α → Bool} {l : List α}
    (h : ∀ c ∈ l, p c = true) : l.takeWhile p = l := by
  induction l with
  | nil => rfl
  | cons c cs ih =>
    have hc := h c (List.mem_cons_self c cs)
    simp [List.takeWhile_cons, hc, ih (fun x hx => h x (List.mem_cons_of_mem _ hx))]

theorem takeWhile_append_of_all {α : Type} {p : α → Bool} :
    ∀ (l₁ l₂ : List α), (∀ c ∈ l₁, p c = true) →
      (l₁ ++ l₂).takeWhile p = l₁ ++ l₂.takeWhile p
  | [], _, _ => rfl
  | c :: cs, l₂, h => by
    have hc := h c (List.mem_cons_self c cs)
    simp only [List.cons_append, List.takeWhile_cons, hc, if_true]
    exact congrArg (c :: ·)
      (takeWhile_append_of_all cs l₂ (fun x hx => h x (List.mem_cons_of_mem _ hx)))

theorem takeWhile_nil_of_head {α : Type} {p : α → Bool} {q : List α}
    (h : ∀ c, q.head? = some c → p c = false) : q.takeWhile p = [] := by
  cases q with
  | nil => rfl
  | cons c cs => simp [List.takeWhile_cons, h c rfl]

theorem firstDigitRun_append_of_none :
    ∀ {l₁ : List Char} (l₂ : List Char), (∀ c ∈ l₁, c.isDigit = false) →
      firstDigitRun (l₁ ++ l₂) = firstDigitRun l₂
  | [], _, _ => rfl
  | c :: cs, l₂, h => by
    have hc := h c (List.mem_cons_self c cs)
    simp only [List.cons_append, firstDigitRun, hc, Bool.false_eq_true, if_false]
    exact firstDigitRun_append_of_none l₂ (fun x hx => h x (List.mem_cons_of_mem _ hx))

theorem firstDigitRun_eq_none {l : List Char}
    (h : ∀ c ∈ l, c.isDigit = false) : firstDigitRun l = none := by
  induction l with
  | nil => rfl
  | cons c cs ih =>
    have hc := h c (List.mem_cons_self c cs)
    simp only [firstDigitRun, hc, Bool.false_eq_true, if_false]
    exact ih (fun x hx => h x (List.mem_cons_of_mem _ hx))

theorem firstDigitRun_some_head :
    ∀ {l r : List Char}, firstDigitRun l = some r →
      ∃ c cs, r = c :: cs ∧ c.isDigit = true
  | [], _, h => by cases h
  | c :: cs, r, h => by
    by_cases hc : c.isDigit = true
    · refine ⟨c, cs.takeWhile Char.isDigit, ?_, hc⟩
      simp only [firstDigitRun, hc, if_true] at h
      exact (Option.some_inj.mp h).symm
    · simp only [firstDigitRun, hc, if_false] at h
      exact firstDigitRun_some_head h

theorem digitsLead_of_all {l : List Char} (hne : l ≠ [])
    (h : ∀ c ∈ l, c.isDigit = true) : digitsLead l = some (digitsToNat l) := by
  unfold digitsLead
  rw [takeWhile_eq_of_all h]
  cases l with
  | nil => exact absurd rfl hne
  | cons c cs => rfl

theorem jsParseInt_cons_digit {c : Char} {cs : List Char} (hc : c.isDigit = true) :
    jsParseInt (c :: cs) = (digitsLead (c :: cs)).map (fun n => (n : Int)) := by
  have h1 : c ≠ '-' := by rintro rfl; exact absurd hc (by decide)
  have h2 : c ≠ '+' := by rintro rfl; exact absurd hc (by decide)
  simp [jsParseInt, h1, h2]

theorem jsParseInt_nonneg_of_mem {l : List Char}
    (h : ∀ c ∈ l, c ≠ '-') :
    jsParseInt l = none ∨ ∃ n : Int, jsParseInt l = some n ∧ 0 ≤ n := by
  cases l with
  | nil => exact Or.inl rfl
  | cons c cs =>
    have hc := h c (List.mem_cons_self c cs)
    simp only [jsParseInt]
    rw [if_neg hc]
    by_cases h2 : c = '+'
    · rw [if_pos h2]
      cases hd : digitsLead cs with
      | none => exact Or.inl rfl
      | some n => exact Or.inr ⟨(n : Int), rfl, Int.natCast_nonneg n⟩
    · rw [if_neg h2]
      cases hd : digitsLead (c :: cs) with
      | none => exact Or.inl rfl
      | some n => exact Or.inr ⟨(n : Int), rfl, Int.natCast_nonneg n⟩

/-- C7: `parseFee` strips every character that is not a decimal digit or a
decimal point, parses the remainder as an integer, and returns the infinite
sentinel (`none`) when the input is empty or the remainder fails to parse;
every non-empty all-digit string maps to its integer value, the rupee and
comma examples parse to 500 and 1200, and the empty string maps to the
sentinel. -/
theorem parseFee_spec :
    (∀ s : String, s ≠ "" → (∀ c ∈ s.data, c.isDigit = true) →
      parseFee s = some (digitsToNat s.data)) ∧
    parseFee "₹ 500" = some 500 ∧ parseFee "1,200" = some 1200 ∧
    parseFee "" = none := by
  refine ⟨?_, by decide, by decide, rfl⟩
  intro s hne hdig
  unfold parseFee
  rw [if_neg hne]
  have hfilter : s.data.filter (fun c => c.isDigit || c = '.') = s.data :=
    List.filter_eq_self.mpr (fun c hc => by rw [hdig c hc]; rfl)
  rw [hfilter]
  cases hd : s.data with
  | nil =>
    exact absurd (String.ext (hd.trans rfl)) hne
  | cons c cs =>
    have hall : ∀ x ∈ c :: cs, x.isDigit = true := fun x hx =>
      hdig x (by rw [hd]; exact hx)
    rw [jsParseInt_cons_digit (hall c (List.mem_cons_self c cs)),
        digitsLead_of_all (List.cons_ne_nil c cs) hall]
    rfl

/-- Witness for C7 at the all-digit string `500`. -/
theorem parseFee_spec_witness : parseFee "500" = some (digitsToNat "500".data) :=
  parseFee_spec.1 "500" (by decide) (by decide)

/-- C8: `parseExperience` returns the integer parsed from the first maximal
run of decimal digits (non-negative by construction), and 0 when the string
is empty or has no digit; the three spec examples evaluate as stated. -/
theorem parseExperience_spec :
    (∀ (p r q : List Char) (s : String), s.data = p ++ (r ++ q) →
      (∀ c ∈ p, c.isDigit = false) → r ≠ [] → (∀ c ∈ r, c.isDigit = true) →
      (∀ c, q.head? = some c → c.isDigit = false) →
      parseExperience s = (digitsToNat r : Int)) ∧
    (∀ s : String, (∀ c ∈ s.data, c.isDigit = false) → parseExperience s = 0) ∧
    parseExperience "13 Years of experience" = 13 ∧
    parseExperience "experience unknown" = 0 ∧ parseExperience "" = 0 := by
  refine ⟨?_, ?_, by decide, by decide, rfl⟩
  · intro p r q s hdata hp hrne hr hq
    have hne : s ≠ "" := by
      intro h
      rw [h] at hdata
      have : p ++ (r ++ q) = [] := hdata.symm
      simp only [List.append_eq_nil] at this
      exact hrne this.2.1
    unfold parseExperience
    rw [if_neg hne, hdata, firstDigitRun_append_of_none _ hp]
    cases r with
    | nil => exact absurd rfl hrne
    | cons c cs =>
      have hc : c.isDigit = true := hr c (List.mem_cons_self c cs)
      have hcs : ∀ x ∈ cs, x.isDigit = true := fun x hx =>
        hr x (List.mem_cons_of_mem _ hx)
      simp only [List.cons_append, firstDigitRun, hc, if_true]
      simp only [List.append_eq]
      rw [takeWhile_append_of_all cs q hcs, takeWhile_nil_of_head hq,
          List.append_nil, jsParseInt_cons_digit hc,
          digitsLead_of_all (List.cons_ne_nil c cs)
            (fun x hx => hr x hx)]
      rfl
  · intro s h
    by_cases hs : s = ""
    · simp [parseExperience, hs]
    · unfold parseExperience
      rw [if_neg hs, firstDigitRun_eq_none h]

/-- Witness for C8 at `ab12cd`: the first digit run is `12`, surrounded by
non-digits. -/
theorem parseExperience_spec_witness :
    parseExperience "ab12cd" = (digitsToNat ['1', '2'] : Int) :=
  parseExperience_spec.1 ['a', 'b'] ['1', '2'] ['c', 'd'] "ab12cd"
    (by decide) (by decide) (by decide) (by decide) (by decide)

/-- C10: normalization parses the fee to either the infinite sentinel or a
non-negative integer (signs are stripped before the integer parse) and the
experience to a non-negative integer; both parsers are total functions of
the raw strings. -/
theorem processDoctor_parsed_nonneg (rawDoc : RawDoctorData) :
    ((processDoctor rawDoc).parsedFees = none ∨
      ∃ n : Int, (processDoctor rawDoc).parsedFees = some n ∧ 0 ≤ n) ∧
    0 ≤ (processDoctor rawDoc).parsedExperience := by
  constructor
  · show parseFee rawDoc.fees = none ∨
      ∃ n : Int, parseFee rawDoc.fees = some n ∧ 0 ≤ n
    by_cases h : rawDoc.fees = ""
    · exact Or.inl (by simp [parseFee, h])
    · have hmem : ∀ c ∈ rawDoc.fees.data.filter
          (fun c => c.isDigit || c = '.'), c ≠ '-' := by
        intro c hc
        have hpred := (List.mem_filter.mp hc).2
        intro he
        rw [he] at hpred
        exact absurd hpred (by decide)
      have := jsParseInt_nonneg_of_mem hmem
      simpa [parseFee, h] using this
  · show 0 ≤ parseExperience rawDoc.experience
    by_cases h : rawDoc.experience = ""
    · simp [parseExperience, h]
    · unfold parseExperience
      rw [if_neg h]
      cases hr : firstDigitRun rawDoc.experience.data with
      | none => exact le_refl 0
      | some run =>
        obtain ⟨c, cs, hrun, hc⟩ := firstDigitRun_some_head hr
        rw [hrun]
        show 0 ≤ (jsParseInt (c :: cs)).getD 0
        rw [jsParseInt_cons_digit hc]
        cases hd : digitsLead (c :: cs) with
        | none => simp
        | some n => simp

/-- C2 counterexample: with active criteria `[fees, experience]`, toggling
`fees` twice yields `[experience, fees]`, not the original sequence — the
criterion loses its position. -/
theorem toggleSortOption_twice_not_id :
    handleToggleSortOption "fees" (handleToggleSortOption "fees" ["fees", "experience"])
      ≠ ["fees", "experience"] := by decide

/-- C2 (amended): toggling a criterion twice restores the original sequence
exactly when the criterion was not already active; when it was active, the
double toggle removes it and re-appends it at the end. -/
theorem toggleSortOption_twice (o : String) (l : List String) :
    handleToggleSortOption o (handleToggleSortOption o l) =
      if l.contains o then l.filter (fun item => item ≠ o) ++ [o] else l := by
  by_cases h : l.contains o = true
  · rw [if_pos h]
    unfold handleToggleSortOption
    rw [if_pos h]
    have h2 : (l.filter (fun item => item ≠ o)).contains o = false := by
      simp
    simp [h2]
  · rw [if_neg h]
    unfold handleToggleSortOption
    rw [if_neg h]
    have hco : (l ++ [o]).contains o = true := by simp
    simp only [hco, if_true]
    rw [List.filter_append]
    have h1 : [o].filter (fun item => item ≠ o) = [] := by simp
    rw [h1, List.append_nil]
    apply List.filter_eq_self.mpr
    intro a ha
    have hne : a ≠ o := by
      intro he
      rw [he] at ha
      exact h (by simp [ha])
    simp [hne]

/-- C4: deserialization-on-init performs no validation of the repeated
`sort` parameter — a duplicated criterion and a value outside the
`{fees, experience}` domain both land verbatim in the active-criteria
sequence. -/
theorem initFromURL_sort_unvalidated :
    (initFromURL [("sort", "fees"), ("sort", "fees"), ("sort", "banana")]).sortOptions
      = ["fees", "fees", "banana"] := by decide

/-- C5: deserialization-on-init does not constrain the `consultation`
parameter to the two-value domain — any non-empty string is kept verbatim
instead of degrading to none. -/
theorem initFromURL_consultation_unvalidated :
    (initFromURL [("consultation", "banana")]).consultationType = some "banana" := by
  decide

/-- C1: with active criteria `[fees, experience]` and two records that both
carry the infinite fee sentinel, the fees comparator computes
`Infinity - Infinity = NaN`, which passes the non-zero test and is returned
without consulting the experience criterion; the sort treats it as a tie
and keeps the original order `[5-years, 10-years]`, whereas the lexicographic
chain of the spec falls through to descending experience and orders the
10-year record first. -/
theorem filteredDoctors_nan_tie_bug :
    filteredDoctors [docInfFiveExp, docInfTenExp] stateFeesThenExperience
        = [docInfFiveExp, docInfTenExp] ∧
    List.insertionSort (fun a b => specLe ["fees", "experience"] a b = true)
        [docInfFiveExp, docInfTenExp] = [docInfTenExp, docInfFiveExp] := by
  constructor
  · decide
  · decide

/-- C9: suggestions are empty when the trimmed search term is empty, and
otherwise are exactly the first `min 3 (number of matches)` name-substring
matches of the full collection, in collection order. -/
theorem suggestions_spec (allDoctors : List Doctor) (searchTerm : String) :
    (trimmedChars searchTerm = [] → suggestions allDoctors searchTerm = []) ∧
    (trimmedChars searchTerm ≠ [] →
      suggestions allDoctors searchTerm
          = (allDoctors.filter (matchesSearch searchTerm)).take 3 ∧
      (suggestions allDoctors searchTerm).length
          = min 3 (allDoctors.filter (matchesSearch searchTerm)).length) := by
  constructor
  · intro h
    simp [suggestions, h]
  · intro h
    refine ⟨by simp [suggestions, h], ?_⟩
    simp [suggestions, h, List.length_take]

/-- Witness for C9: a blank search term gives no suggestions, and the term
`ann`, matching five of the six pooled records, gives exactly the first
three matches in collection order. -/
theorem suggestions_spec_witness :
    suggestions suggestionPool "   " = [] ∧
    (suggestions suggestionPool "ann"
        = (suggestionPool.filter (matchesSearch "ann")).take 3 ∧
      (suggestions suggestionPool "ann").length
        = min 3 (suggestionPool.filter (matchesSearch "ann")).length) :=
  ⟨(suggestions_spec suggestionPool "   ").1 (by decide),
   (suggestions_spec suggestionPool "ann").2 (by decide)⟩

theorem stageSearch_eq (st : FilterState) (docs : List Doctor) :
    stageSearch st docs = docs.filter
      (fun doc => decide (st.searchTerm = "") || matchesSearch st.searchTerm doc) := by
  by_cases h : st.searchTerm = "" <;> simp [stageSearch, h]

theorem stageConsult_eq (st : FilterState) (docs : List Doctor)
    (h : st.consultationType = none ∨ st.consultationType = some "Video Consult" ∨
      st.consultationType = some "In Clinic") :
    stageConsult st docs = docs.filter
      (fun doc => match st.consultationType with
                  | none => true
                  | some c => doc.consultationModes.contains c) := by
  rcases h with h | h | h <;> simp [stageConsult, h]

theorem stageSpecialty_eq (st : FilterState) (docs : List Doctor) :
    stageSpecialty st docs = docs.filter
      (fun doc => decide (st.specialties = []) ||
        doc.specialityNames.any (fun n => st.specialties.contains n)) := by
  by_cases h : st.specialties = [] <;> simp [stageSpecialty, h]

theorem stages_eq_filter (docs : List Doctor) (st : FilterState)
    (h : st.consultationType = none ∨ st.consultationType = some "Video Consult" ∨
      st.consultationType = some "In Clinic") :
    stageSpecialty st (stageConsult st (stageSearch st docs))
      = docs.filter (passesAllStages st) := by
  rw [stageSearch_eq, stageConsult_eq st _ h, stageSpecialty_eq,
      List.filter_filter, List.filter_filter]
  apply List.filter_congr
  intro d _
  unfold passesAllStages
  cases h1 : (decide (st.searchTerm = "") || matchesSearch st.searchTerm d) <;>
    cases h2 : (match st.consultationType with
                | none => true
                | some c => d.consultationModes.contains c) <;>
    cases h3 : (decide (st.specialties = []) ||
        d.specialityNames.any (fun n => st.specialties.contains n)) <;>
    simp [h1, h2, h3]

/-- C6: over the spec domain of consultation filters, the filtered list is
a permutation of the records passing the three conjunctive stages, and with
no active sort criteria it is exactly that filter of the collection in
original order. -/
theorem filteredDoctors_conjunctive_stages (allDoctors : List Doctor) (st : FilterState)
    (h : st.consultationType = none ∨ st.consultationType = some "Video Consult" ∨
      st.consultationType = some "In Clinic") :
    List.Perm (filteredDoctors allDoctors st) (allDoctors.filter (passesAllStages st)) ∧
    (st.sortOptions = [] →
      filteredDoctors allDoctors st = allDoctors.filter (passesAllStages st)) := by
  have hst := stages_eq_filter allDoctors st h
  constructor
  · unfold filteredDoctors
    by_cases hs : st.sortOptions = []
    · rw [if_neg (by simp [hs]), hst]
    · rw [if_pos hs, hst]
      exact List.perm_insertionSort _ _
  · intro hs
    unfold filteredDoctors
    rw [if_neg (by simp [hs])]
    exact hst

/-- Witness for C6 at a concrete collection and state (search text `ann`,
video-consult filter, one selected specialty, no sort criteria). -/
theorem filteredDoctors_conjunctive_stages_witness :
    List.Perm (filteredDoctors filterDemoDoctors filterDemoState)
      (filterDemoDoctors.filter (passesAllStages filterDemoState)) ∧
    (filterDemoState.sortOptions = [] →
      filteredDoctors filterDemoDoctors filterDemoState
        = filterDemoDoctors.filter (passesAllStages filterDemoState)) :=
  filteredDoctors_conjunctive_stages filterDemoDoctors filterDemoState
    (Or.inr (Or.inl rfl))

theorem getParam_append (q₁ q₂ : QueryString) (k : String) :
    getParam (q₁ ++ q₂) k = (getParam q₁ k).or (getParam q₂ k) := by
  unfold getParam
  rw [List.find?_append]
  cases List.find? (fun p => p.1 = k) q₁ <;> simp

theorem getAllParams_append (q₁ q₂ : QueryString) (k : String) :
    getAllParams (q₁ ++ q₂) k = getAllParams q₁ k ++ getAllParams q₂ k := by
  simp [getAllParams, List.filter_append]

theorem getParam_pairs_ne (l : List String) (key k : String) (h : key ≠ k) :
    getParam (l.map (fun s => (key, s))) k = none := by
  induction l with
  | nil => rfl
  | cons s rest ih =>
    simp [getParam, List.find?_cons, h]

theorem getAllParams_pairs_eq (l : List String) (key : String) :
    getAllParams (l.map (fun s => (key, s))) key = l := by
  induction l with
  | nil => rfl
  | cons s rest ih =>
    simp only [List.map_cons, getAllParams, List.filter_cons] at ih ⊢
    simp [ih]

theorem getAllParams_pairs_ne (l : List String) (key k : String) (h : key ≠ k) :
    getAllParams (l.map (fun s => (key, s))) k = [] := by
  induction l with
  | nil => rfl
  | cons s rest ih =>
    simp only [List.map_cons, getAllParams, List.filter_cons] at ih ⊢
    simp [h, ih]

theorem mem_setFromList (l : List String) (s : String) :
    s ∈ setFromList l ↔ s ∈ l := by
  induction l using setFromList.induct with
  | case1 => rw [setFromList]
  | case2 x rest ih =>
    rw [setFromList]
    simp only [List.mem_cons, ih, List.mem_filter, decide_eq_true_eq]
    constructor
    · rintro (rfl | ⟨hs, _⟩)
      · exact Or.inl rfl
      · exact Or.inr hs
    · rintro (rfl | hs)
      · exact Or.inl rfl
      · by_cases hx : s = x
        · exact Or.inl hx
        · exact Or.inr ⟨hs, hx⟩

theorem reachable_consult_ne (st : FilterState) (h : Reachable st) :
    st.consultationType ≠ some "" := by
  induction h with
  | init q =>
    show (initFromURL q).consultationType ≠ some ""
    simp only [initFromURL]
    cases getParam q "consultation" with
    | none => simp
    | some c =>
      by_cases hc : c = "" <;> simp [hc]
  | search t st' h ih => simpa [setSearchTermState] using ih
  | consult m st' hm h ih =>
    rcases hm with rfl | rfl | rfl <;> simp [setConsultationTypeState]
  | spec s st' h ih => simpa [toggleSpecialtyState] using ih
  | sort o st' ho h ih => simpa [toggleSortOptionState] using ih
  | clear st' h ih => simp [clearedFilters]

theorem getParam_consult_seg (st : FilterState) (k : String)
    (h : k ≠ "consultation") :
    getParam
      (match st.consultationType with
       | none => []
       | some c => if c = "" then [] else [("consultation", c)]) k = none := by
  cases st.consultationType with
  | none => rfl
  | some c =>
    by_cases hc : c = ""
    · simp [hc, getParam]
    · simp [hc, getParam, List.find?, Ne.symm h]

theorem getParam_serialize_search (st : FilterState) :
    getParam (serializeFilters st) "search" =
      if st.searchTerm = "" then none else some st.searchTerm := by
  unfold serializeFilters
  rw [getParam_append, getParam_append, getParam_append,
      getParam_pairs_ne st.specialties "specialty" "search" (by decide),
      getParam_pairs_ne st.sortOptions "sort" "search" (by decide),
      getParam_consult_seg st "search" (by decide)]
  by_cases hs : st.searchTerm = ""
  · simp [hs, getParam]
  · simp [hs, getParam, List.find?]

theorem getParam_serialize_consult (st : FilterState) :
    getParam (serializeFilters st) "consultation" =
      match st.consultationType with
      | none => none
      | some c => if c = "" then none else some c := by
  unfold serializeFilters
  rw [getParam_append, getParam_append, getParam_append,
      getParam_pairs_ne st.specialties "specialty" "consultation" (by decide),
      getParam_pairs_ne st.sortOptions "sort" "consultation" (by decide)]
  have hA : getParam
      (if st.searchTerm = "" then [] else [("search", st.searchTerm)])
      "consultation" = none := by
    by_cases hs : st.searchTerm = ""
    · simp [hs, getParam]
    · simp [hs, getParam, List.find?]
  rw [hA]
  cases st.consultationType with
  | none => rfl
  | some c =>
    by_cases hc : c = ""
    · simp [hc, getParam]
    · simp [hc, getParam, List.find?]

theorem getAllParams_searchSeg (st : FilterState) (k : String) (h : k ≠ "search") :
    getAllParams (if st.searchTerm = "" then [] else [("search", st.searchTerm)]) k
      = [] := by
  by_cases hs : st.searchTerm = ""
  · simp [hs, getAllParams]
  · simp [hs, getAllParams, List.filter, Ne.symm h]

theorem getAllParams_consultSeg (st : FilterState) (k : String)
    (h : k ≠ "consultation") :
    getAllParams
      (match st.consultationType with
       | none => []
       | some c => if c = "" then [] else [("consultation", c)]) k = [] := by
  cases st.consultationType with
  | none => rfl
  | some c =>
    by_cases hc : c = ""
    · simp [hc, getAllParams]
    · simp [hc, getAllParams, List.filter, Ne.symm h]

theorem getAllParams_serialize_specialty (st : FilterState) :
    getAllParams (serializeFilters st) "specialty" = st.specialties := by
  unfold serializeFilters
  rw [getAllParams_append, getAllParams_append, getAllParams_append,
      getAllParams_searchSeg st "specialty" (by decide),
      getAllParams_consultSeg st "specialty" (by decide),
      getAllParams_pairs_eq st.specialties "specialty",
      getAllParams_pairs_ne st.sortOptions "sort" "specialty" (by decide)]
  simp

theorem getAllParams_serialize_sort (st : FilterState) :
    getAllParams (serializeFilters st) "sort" = st.sortOptions := by
  unfold serializeFilters
  rw [getAllParams_append, getAllParams_append, getAllParams_append,
      getAllParams_searchSeg st "sort" (by decide),
      getAllParams_consultSeg st "sort" (by decide),
      getAllParams_pairs_ne st.specialties "specialty" "sort" (by decide),
      getAllParams_pairs_eq st.sortOptions "sort"]
  simp

/-- C3: for every reachable filter state, deserializing the serialized
state reproduces the state — string equality for search and consultation,
set equality for specialties, sequence equality for the sort criteria. -/
theorem urlRoundTrip (st : FilterState) (h : Reachable st) :
    FilterStateEquiv (initFromURL (serializeFilters st)) st := by
  have hcne := reachable_consult_ne st h
  refine ⟨?_, ?_, ?_, ?_⟩
  · show (initFromURL (serializeFilters st)).searchTerm = st.searchTerm
    simp only [initFromURL]
    rw [getParam_serialize_search]
    by_cases hs : st.searchTerm = "" <;> simp [hs]
  · show (initFromURL (serializeFilters st)).consultationType = st.consultationType
    simp only [initFromURL]
    rw [getParam_serialize_consult]
    cases hct : st.consultationType with
    | none => rfl
    | some c =>
      have hc : c ≠ "" := by
        rintro rfl
        exact hcne hct
      simp [hc]
  · intro s
    show s ∈ (initFromURL (serializeFilters st)).specialties ↔ s ∈ st.specialties
    simp only [initFromURL]
    rw [getAllParams_serialize_specialty]
    exact mem_setFromList st.specialties s
  · show (initFromURL (serializeFilters st)).sortOptions = st.sortOptions
    simp only [initFromURL]
    rw [getAllParams_serialize_sort]

/-- Witness for C3 at a state initialized from a query string with every
parameter kind and a duplicated specialty. -/
theorem urlRoundTrip_witness :
    FilterStateEquiv
      (initFromURL (serializeFilters (initFromURL roundTripDemoQuery)))
      (initFromURL roundTripDemoQuery) :=
  urlRoundTrip (initFromURL roundTripDemoQuery) (Reachable.init roundTripDemoQuery)
